import Mathlib

/-!
Verification development for the `DataLoader` procurement-report generator
(`data_loader.py`).  The pipeline is shallowly embedded: tabular data becomes
a `Frame` (column names plus rows of `Value`s), pandas' float arithmetic is
idealised as exact rational arithmetic (`MRat`, an integer pair with positive
denominator, kept unreduced so every operation is kernel-computable), and the
IEEE special values produced by division (`nan`, `±inf`) are made explicit in
`FVal`.  Excel-side styling (fonts, fills, borders, widths) is presentation
and is not modelled; each sheet's semantic content is captured in `Report`.
-/

/-- Exact rational number with explicit positive denominator, kept
unreduced (no gcd) so that all arithmetic reduces in the kernel.  Models the
real value of a Python/numpy float in the source. -/
structure MRat where
  num : ℤ
  den : ℤ
  dpos : 0 < den

instance : DecidableEq MRat := fun a b =>
  if h : a.num = b.num ∧ a.den = b.den then
    isTrue (by cases a; cases b; simp_all)
  else
    isFalse (fun he => h (by cases a; cases b; cases he; exact ⟨rfl, rfl⟩))

def MRat.ofInt (n : ℤ) : MRat := ⟨n, 1, one_pos⟩

instance (n : ℕ) : OfNat MRat n := ⟨MRat.ofInt n⟩

def MRat.add (a b : MRat) : MRat :=
  ⟨a.num * b.den + b.num * a.den, a.den * b.den, mul_pos a.dpos b.dpos⟩

def MRat.mul (a b : MRat) : MRat :=
  ⟨a.num * b.num, a.den * b.den, mul_pos a.dpos b.dpos⟩

/-- Division `a / b`; meaningful only when `b` is nonzero (the zero case is
routed to `FVal` specials by `fdiv` before `dv` is ever used). -/
def MRat.dv (a b : MRat) : MRat :=
  if h : 0 < b.num then
    ⟨a.num * b.den, a.den * b.num, mul_pos a.dpos h⟩
  else if h2 : b.num < 0 then
    ⟨-(a.num * b.den), a.den * (-b.num), mul_pos a.dpos (by omega)⟩
  else ⟨0, 1, one_pos⟩

/-- Semantic equality of rationals (cross multiplication). -/
def MRat.Equiv (a b : MRat) : Prop := a.num * b.den = b.num * a.den

instance (a b : MRat) : Decidable (MRat.Equiv a b) :=
  inferInstanceAs (Decidable (a.num * b.den = b.num * a.den))

def MRat.eqb (a b : MRat) : Bool := decide (MRat.Equiv a b)

def MRat.Le (a b : MRat) : Prop := a.num * b.den ≤ b.num * a.den

def MRat.Lt (a b : MRat) : Prop := a.num * b.den < b.num * a.den

instance (a b : MRat) : Decidable (MRat.Le a b) :=
  inferInstanceAs (Decidable (a.num * b.den ≤ b.num * a.den))

instance (a b : MRat) : Decidable (MRat.Lt a b) :=
  inferInstanceAs (Decidable (a.num * b.den < b.num * a.den))

def MRat.leb (a b : MRat) : Bool := decide (MRat.Le a b)

def MRat.ltb (a b : MRat) : Bool := decide (MRat.Lt a b)

theorem MRat.le_trans {a b c : MRat} (h1 : MRat.Le a b) (h2 : MRat.Le b c) :
    MRat.Le a c := by
  unfold MRat.Le at *
  have hb := b.dpos
  have ha := a.dpos
  have hc := c.dpos
  have k1 : a.num * b.den * c.den ≤ b.num * a.den * c.den :=
    mul_le_mul_of_nonneg_right h1 (le_of_lt hc)
  have k2 : b.num * c.den * a.den ≤ c.num * b.den * a.den :=
    mul_le_mul_of_nonneg_right h2 (le_of_lt ha)
  have k3 : a.num * c.den * b.den ≤ c.num * a.den * b.den := by nlinarith
  exact le_of_mul_le_mul_right k3 hb

theorem MRat.le_total (a b : MRat) : MRat.Le a b ∨ MRat.Le b a := by
  unfold MRat.Le
  omega

/-- Result of a float computation that may be an IEEE special value.  numpy
float division never raises: `0/0 = nan`, `x/0 = ±inf`. -/
inductive FVal where
  | fin (q : MRat)
  | nan
  | inf
  | ninf
deriving DecidableEq

/-- numpy float division: finite quotient when the divisor is nonzero,
`nan` for `0/0`, signed infinity otherwise (no exception raised). -/
def fdiv (a b : MRat) : FVal :=
  if b.num = 0 then
    if a.num = 0 then FVal.nan
    else if 0 < a.num then FVal.inf
    else FVal.ninf
  else FVal.fin (MRat.dv a b)

/-- Multiplication of a possibly-special float by a positive rational constant
(used for the `* 100` in the concentration percentage). -/
def fscale (v : FVal) (c : MRat) : FVal :=
  match v with
  | FVal.fin q => FVal.fin (MRat.mul q c)
  | FVal.nan => FVal.nan
  | FVal.inf => FVal.inf
  | FVal.ninf => FVal.ninf

/-- `v > c` as Python evaluates it on floats: comparisons with `nan` are
`False`, `inf` exceeds every finite bound, `-inf` none. -/
def FVal.gtb (v : FVal) (c : MRat) : Bool :=
  match v with
  | FVal.fin q => MRat.ltb c q
  | FVal.nan => false
  | FVal.inf => true
  | FVal.ninf => false

/-! ## Calendar arithmetic (proleptic Gregorian, rata die day numbers)

Used to model pandas `Timestamp`s at day granularity: a date is its day
number, with 0001-01-01 = day 1.  Spreadsheet serial decoding in
`_parse_date` is an offset from the day number of 1899-12-30. -/

def isLeap (y : ℕ) : Bool := (y % 4 == 0 && y % 100 != 0) || y % 400 == 0

/-- Days in the months strictly before month `m` (1-based) of a year. -/
def daysBeforeMonth (m : ℕ) (leap : Bool) : ℕ :=
  match m with
  | 1 => 0
  | 2 => 31
  | 3 => 59 + (if leap then 1 else 0)
  | 4 => 90 + (if leap then 1 else 0)
  | 5 => 120 + (if leap then 1 else 0)
  | 6 => 151 + (if leap then 1 else 0)
  | 7 => 181 + (if leap then 1 else 0)
  | 8 => 212 + (if leap then 1 else 0)
  | 9 => 243 + (if leap then 1 else 0)
  | 10 => 273 + (if leap then 1 else 0)
  | 11 => 304 + (if leap then 1 else 0)
  | _ => 334 + (if leap then 1 else 0)

def daysInMonth (y m : ℕ) : ℕ :=
  match m with
  | 2 => if isLeap y then 29 else 28
  | 4 => 30
  | 6 => 30
  | 9 => 30
  | 11 => 30
  | _ => 31

/-- Rata die day number of a (proleptic Gregorian) calendar date:
0001-01-01 has day number 1. -/
def rataDie (y m d : ℕ) : ℕ :=
  365 * (y - 1) + (y - 1) / 4 - (y - 1) / 100 + (y - 1) / 400 +
    daysBeforeMonth m (isLeap y) + d

/-! ## Values

A `Value` is one cell of the table: the Python values the loader
distinguishes.  `vNone`, `vNaN` and `vNaT` are the three null-like objects
(`None`, `float('nan')`, `pd.NaT`); all three satisfy `pd.isna`. -/

inductive Value where
  | vNone
  | vNaN
  | vNaT
  | vNum (q : MRat)
  | vStr (s : String)
  | vDate (t : MRat)
deriving DecidableEq

/-- `pd.isna`: `None`, `nan` and `NaT` are all missing. -/
def Value.isna (v : Value) : Bool :=
  match v with
  | Value.vNone => true
  | Value.vNaN => true
  | Value.vNaT => true
  | _ => false

/-- The numeric content of a coerced amount cell, if any. -/
def Value.toQ (v : Value) : Option MRat :=
  match v with
  | Value.vNum q => some q
  | _ => none

/-! ## String parsing helpers (structural recursion over `List Char`) -/

/-- Parse a nonempty all-digit character list as a natural number. -/
def digitsToNat : List Char → Option ℕ
  | [] => none
  | cs => go cs 0
where
  go : List Char → ℕ → Option ℕ
  | [], acc => some acc
  | c :: cs, acc =>
    if c.isDigit then go cs (acc * 10 + (c.toNat - 48)) else none

/-- Split a character list on a separator character. -/
def splitOnChar (sep : Char) : List Char → List (List Char)
  | [] => [[]]
  | c :: cs =>
    let rest := splitOnChar sep cs
    if c = sep then [] :: rest
    else
      match rest with
      | [] => [[c]]
      | p :: ps => (c :: p) :: ps

/-- Model of a decimal-number parse as `pd.to_numeric` applies it to one
string: optional sign, digits, optional fractional part.  Returns the exact
rational value. -/
def parseDecimal (s : String) : Option MRat :=
  let cs := s.toList
  let (sign, body) :=
    match cs with
    | '-' :: rest => (true, rest)
    | '+' :: rest => (false, rest)
    | _ => (false, cs)
  match splitOnChar '.' body with
  | [ip] =>
    match digitsToNat ip with
    | some n => some ⟨(if sign then -(n : ℤ) else (n : ℤ)), 1, one_pos⟩
    | none => none
  | [ip, fp] =>
    match digitsToNat ip, digitsToNat fp with
    | some n, some f =>
      let d : ℤ := (10 : ℤ) ^ fp.length
      some ⟨(if sign then -1 else 1) * ((n : ℤ) * d + (f : ℤ)), d,
        by positivity⟩
    | _, _ => none
  | _ => none

/-- Model of the generic calendar-date parse `pd.to_datetime(str)`,
restricted to ISO `YYYY-MM-DD` with validity checks; any other string fails
(yielding `none`, which `_parse_date` turns into `NaT`). -/
def parseDateString (s : String) : Option MRat :=
  match splitOnChar '-' s.toList with
  | [ys, ms, ds] =>
    match digitsToNat ys, digitsToNat ms, digitsToNat ds with
    | some y, some m, some d =>
      if 1 ≤ y ∧ 1 ≤ m ∧ m ≤ 12 ∧ 1 ≤ d ∧ d ≤ daysInMonth y m then
        some (MRat.ofInt (rataDie y m d))
      else none
    | _, _, _ => none
  | _ => none

/-! ## `_parse_date` (data_loader.py lines 107-121) -/

/-- Day number of the spreadsheet serial epoch 1899-12-30. -/
def serialEpoch : ℕ := rataDie 1899 12 30

/-- pandas `Timestamp` bounds at day granularity (1677-09-21..2262-04-11);
serial conversion out of these bounds raises and is caught. -/
def tsMinDay : ℕ := rataDie 1677 9 22

def tsMaxDay : ℕ := rataDie 2262 4 11

/-- `pd.to_datetime(val, unit='D', origin='1899-12-30')`: day-granularity
offset from the 1899-12-30 epoch; fails (raises, here `none`) when the
resulting timestamp is outside the representable range. -/
def serialToDate (q : MRat) : Option MRat :=
  let t := MRat.add (MRat.ofInt serialEpoch) q
  if MRat.leb (MRat.ofInt tsMinDay) t && MRat.leb t (MRat.ofInt tsMaxDay) then
    some t
  else none

/-- Nanoseconds per day, for the generic numeric parse. -/
def nsPerDay : MRat := MRat.ofInt 86400000000000

/-- int64 nanosecond bound of a pandas `Timestamp`. -/
def nsBound : ℤ := 9223372036854775807

/-- `pd.to_datetime(val)` on a plain number: interpreted as nanoseconds since
1970-01-01; out-of-int64-bounds values raise (caught, giving `NaT`). -/
def genericParseNum (q : MRat) : Value :=
  if MRat.leb (MRat.ofInt (-nsBound)) q && MRat.leb q (MRat.ofInt nsBound) then
    Value.vDate (MRat.add (MRat.ofInt (rataDie 1970 1 1)) (MRat.dv q nsPerDay))
  else Value.vNaT

/-- `DataLoader._parse_date`: nulls pass through unchanged; numbers above
25569 are tried as spreadsheet serials first, falling through to generic
parsing on failure; strings get the generic calendar parse; total failure
yields `pd.NaT`. -/
def parseDate (v : Value) : Value :=
  if v.isna then v
  else
    match v with
    | Value.vNum q =>
      if MRat.ltb (MRat.ofInt 25569) q then
        match serialToDate q with
        | some t => Value.vDate t
        | none => genericParseNum q
      else genericParseNum q
    | Value.vStr s =>
      match parseDateString s with
      | some t => Value.vDate t
      | none => Value.vNaT
    | Value.vDate t => Value.vDate t
    | _ => Value.vNaT

/-- `pd.to_numeric(col, errors='coerce')` applied to one cell: numbers pass
through, numeric strings are parsed, everything else becomes `nan`. -/
def toNumeric (v : Value) : Value :=
  match v with
  | Value.vNum q => Value.vNum q
  | Value.vStr s =>
    match parseDecimal s with
    | some q => Value.vNum q
    | none => Value.vNaN
  | _ => Value.vNaN

/-! ## Frames

A `Frame` models a pandas `DataFrame`: named columns over rows of cells.
Row `i`, column `j` is `data[i][j]`; `data.length` models `len(df)`. -/

structure Frame where
  cols : List String
  data : List (List Value)
deriving DecidableEq

/-- Extract one column by name (first matching header). -/
def Frame.col (f : Frame) (c : String) : List Value :=
  match f.cols.indexOf? c with
  | some i => f.data.map (fun row => row.getD i Value.vNone)
  | none => []

/-- Replace a column's cells pointwise (models `df[c] = df[c].apply(g)`);
no-op when the column is absent. -/
def Frame.setCol (f : Frame) (c : String) (g : Value → Value) : Frame :=
  match f.cols.indexOf? c with
  | some i =>
    { f with data := f.data.map (fun row => row.set i (g (row.getD i Value.vNone))) }
  | none => f

/-- One header rename under the inverted mapping (source → canonical). -/
def renameCol (inv : List (String × String)) (c : String) : String :=
  match inv.find? (fun p => p.1 == c) with
  | some p => p.2
  | none => c

/-- Lines 36-40: build `inv_map = {v: k for k, v in mapping_info.items() if
v in df.columns}` and rename.  The mapping is canonical→source pairs; a
source name occurring twice keeps the last entry (dict overwrite), hence the
`reverse` before the first-match lookup. -/
def applyMapping (f : Frame) (m : Option (List (String × String))) : Frame :=
  match m with
  | none => f
  | some mp =>
    let inv := (mp.reverse.filter (fun p => f.cols.contains p.2)).map
      (fun p => (p.2, p.1))
    { f with cols := f.cols.map (renameCol inv) }

/-- Lines 52-57: amount → `pd.to_numeric(..., errors='coerce')`, then date →
`_parse_date` applied per cell. -/
def normalizeFrame (f : Frame) : Frame :=
  (f.setCol "amount" toNumeric).setCol "date" parseDate

/-! ## Grouped aggregation (`groupby('vendor')['amount']`) -/

def msum (l : List MRat) : MRat := l.foldr MRat.add (MRat.ofInt 0)

/-- The (vendor, coerced amount) pairs of the normalized frame. -/
def vendorAmountPairs (f : Frame) : List (Value × Option MRat) :=
  (f.col "vendor").zip ((f.col "amount").map Value.toQ)

/-- Group keys: distinct non-null vendors (pandas groupby drops NaN keys). -/
def keysOf (l : List (Value × Option MRat)) : List Value :=
  ((l.map Prod.fst).filter (fun v => !v.isna)).dedup

/-- groupby sum: total of the non-null amounts of one vendor (skipna, an
all-null group sums to 0). -/
def sumFor (l : List (Value × Option MRat)) (k : Value) : MRat :=
  msum ((l.filter (fun p => p.1 == k)).filterMap Prod.snd)

/-- groupby count: number of non-null amounts of one vendor. -/
def countFor (l : List (Value × Option MRat)) (k : Value) : ℕ :=
  ((l.filter (fun p => p.1 == k)).filterMap Prod.snd).length

structure VendStat where
  vendor : Value
  total : MRat
  count : ℕ
deriving DecidableEq

def vendStats (l : List (Value × Option MRat)) : List VendStat :=
  (keysOf l).map (fun k => ⟨k, sumFor l k, countFor l k⟩)

/-- Descending order on totals used by `sort_values('Total Spend',
ascending=False)` and `nlargest`. -/
def DescTotal (a b : VendStat) : Prop := MRat.Le b.total a.total

instance : DecidableRel DescTotal := fun a b =>
  inferInstanceAs (Decidable (MRat.Le b.total a.total))

instance : IsTotal VendStat DescTotal :=
  ⟨fun a b => (MRat.le_total b.total a.total).elim Or.inl Or.inr⟩

instance : IsTrans VendStat DescTotal :=
  ⟨fun _ _ _ h1 h2 => MRat.le_trans h2 h1⟩

def sortStats (s : List VendStat) : List VendStat := s.insertionSort DescTotal

/-- Grand total `df['amount'].sum()` (skipna). -/
def sumAmounts (f : Frame) : MRat := msum ((f.col "amount").filterMap Value.toQ)

/-! ## Sheet content -/

/-- A data row of the "Spend by Vendor" sheet. -/
structure VendRow where
  rank : ℕ
  vendor : Value
  total : MRat
  count : ℕ
  mean : FVal
  pct : FVal
deriving DecidableEq

/-- A row of the "TOP 5 VENDORS BY SPEND" table of the summary sheet. -/
structure TopRow where
  rank : ℕ
  vendor : Value
  total : MRat
  pct : FVal
  count : ℕ
deriving DecidableEq

def mkVendRows (grand : MRat) (sorted : List VendStat) : List VendRow :=
  sorted.enum.map (fun p =>
    ⟨p.1 + 1, p.2.vendor, p.2.total, p.2.count,
      fdiv p.2.total (MRat.ofInt p.2.count), fdiv p.2.total grand⟩)

def mkTopRows (grand : MRat) (l : List VendStat) : List TopRow :=
  l.enum.map (fun p =>
    ⟨p.1 + 1, p.2.vendor, p.2.total, fdiv p.2.total grand, p.2.count⟩)

/-- An insight of the "Top Insights" sheet, with its narrative strings
abstracted to the figures they interpolate. -/
inductive Insight where
  | consolidation (count : ℕ) (tailSpend savLo savHi : MRat)
  | concentration (top10 : MRat) (pct : FVal) (risk : String)
deriving DecidableEq

/-- Tail vendors: total spend strictly below 5000 (line 312). -/
def tailOf (stats : List VendStat) : List VendStat :=
  stats.filter (fun s => MRat.ltb s.total (MRat.ofInt 5000))

/-- `vendor_stats.nlargest(10).sum()` (line 324). -/
def top10Spend (stats : List VendStat) : MRat :=
  msum (((sortStats stats).take 10).map VendStat.total)

/-- The 15% and 20% factors of the recommended savings range (line 319). -/
def pct15 : MRat := ⟨15, 100, by decide⟩

def pct20 : MRat := ⟨20, 100, by decide⟩

/-- Lines 308-334: the consolidation insight when tail vendors exist,
always followed by the concentration insight. -/
def mkInsights (stats : List VendStat) (grand : MRat) : List Insight :=
  let tail := tailOf stats
  let consList :=
    if tail.isEmpty then ([] : List Insight)
    else
      let ts := msum (tail.map VendStat.total)
      [Insight.consolidation tail.length ts
        (MRat.mul ts pct15) (MRat.mul ts pct20)]
  let t10 := top10Spend stats
  let pct := fscale (fdiv t10 grand) (MRat.ofInt 100)
  let risk :=
    if pct.gtb (MRat.ofInt 80) then "High"
    else if pct.gtb (MRat.ofInt 50) then "Medium"
    else "Low"
  consList ++ [Insight.concentration t10 pct risk]

/-- A row of the "Data Quality Report" sheet. -/
structure QualityRow where
  field : String
  pct : MRat
  status : String
deriving DecidableEq

def nonNullCount (vs : List Value) : ℕ := (vs.filter (fun v => !v.isna)).length

/-- Status thresholds of lines 396-403. -/
def statusOf (c : MRat) : String :=
  if MRat.leb (MRat.ofInt 90) c then "OK"
  else if MRat.leb (MRat.ofInt 70) c then "WARNING"
  else "CRITICAL"

/-- `(df[c].notna().sum() / len(df)) * 100` (line 373). -/
def completenessOf (f : Frame) (c : String) : MRat :=
  MRat.mul (MRat.dv (MRat.ofInt (nonNullCount (f.col c)))
    (MRat.ofInt f.data.length)) (MRat.ofInt 100)

def mkQualityRows (f : Frame) : List QualityRow :=
  f.cols.map (fun c => ⟨c, completenessOf f c, statusOf (completenessOf f c)⟩)

/-- `completeness.mean()` (line 374). -/
def overallScore (f : Frame) : MRat :=
  MRat.dv (msum (f.cols.map (completenessOf f))) (MRat.ofInt f.cols.length)

/-- The semantic content of the generated workbook. -/
structure Report where
  sheetNames : List String
  execTotalSpend : MRat
  execTxCount : ℕ
  execVendorCount : ℕ
  execTop5 : List TopRow
  vendorSheet : List VendRow
  insights : List Insight
  quality : List QualityRow
  overall : MRat
deriving DecidableEq

/-- The seven sheets created by lines 75-95, in creation order (the default
sheet is removed at lines 72-73). -/
def sevenSheets : List String :=
  ["Executive Summary", "Spend by Vendor", "Spend by Category",
   "Monthly Trends", "Top Insights", "Detailed Data", "Data Quality Report"]

def buildReport (f : Frame) : Report :=
  let pairs := vendorAmountPairs f
  let stats := vendStats pairs
  let grand := sumAmounts f
  { sheetNames := sevenSheets
    execTotalSpend := grand
    execTxCount := f.data.length
    execVendorCount := (keysOf pairs).length
    execTop5 := mkTopRows grand ((sortStats stats).take 5)
    vendorSheet := mkVendRows grand (sortStats stats)
    insights := mkInsights stats grand
    quality := mkQualityRows f
    overall := overallScore f }

inductive LoadError where
  | emptyInput
  | missingFields (fields : List String)
deriving DecidableEq

instance {ε α : Type} [DecidableEq ε] [DecidableEq α] :
    DecidableEq (Except ε α) := fun a b =>
  match a, b with
  | Except.error e, Except.error e2 =>
    if h : e = e2 then isTrue (by rw [h])
    else isFalse (fun he => by cases he; exact h rfl)
  | Except.ok x, Except.ok y =>
    if h : x = y then isTrue (by rw [h])
    else isFalse (fun he => by cases he; exact h rfl)
  | Except.error _, Except.ok _ => isFalse (fun he => by cases he)
  | Except.ok _, Except.error _ => isFalse (fun he => by cases he)

def requiredFields : List String := ["vendor", "amount", "date"]

/-- `DataLoader.load` (lines 33-101): map columns, validate (`df.empty` is
true when either axis has length 0), normalize, and assemble the report. -/
def load (df : Frame) (m : Option (List (String × String))) :
    Except LoadError Report :=
  let f := applyMapping df m
  if f.data.length = 0 ∨ f.cols = [] then Except.error LoadError.emptyInput
  else
    let missing := requiredFields.filter (fun c => decide (c ∉ f.cols))
    if missing = [] then Except.ok (buildReport (normalizeFrame f))
    else Except.error (LoadError.missingFields missing)

/-! ## Object-level model of `load`

To state the frame condition (the caller's DataFrame is never modified) the
aliasing structure of lines 33-57 is made explicit: a `Heap` of frame
objects, with the caller's frame at index `r`.  `df.copy()` allocates,
`df.rename` allocates and rebinds the local, and the column assignments of
lines 54-57 mutate the object the local is bound to. -/

abbrev Heap := List Frame

def emptyFrame : Frame := ⟨[], []⟩

def loadHeap (h : Heap) (r : ℕ) (m : Option (List (String × String))) :
    Except LoadError Report × Heap :=
  let h1 := h ++ [h.getD r emptyFrame]
  let c1 := h.length
  let step2 :=
    match m with
    | some mp => (h1 ++ [applyMapping (h1.getD c1 emptyFrame) (some mp)],
        h1.length)
    | none => (h1, c1)
  let f := step2.1.getD step2.2 emptyFrame
  if f.data.length = 0 ∨ f.cols = [] then
    (Except.error LoadError.emptyInput, step2.1)
  else
    let missing := requiredFields.filter (fun c => decide (c ∉ f.cols))
    if missing = [] then
      (Except.ok (buildReport (normalizeFrame f)), step2.1.set step2.2 (normalizeFrame f))
    else (Except.error (LoadError.missingFields missing), step2.1)

/-! ## Shared lemmas and concrete inputs -/

theorem applyMapping_data (f : Frame) (m : Option (List (String × String))) :
    (applyMapping f m).data = f.data := by
  cases m <;> rfl

/-- On input passing validation, `load` returns the report of the
normalized, mapped frame. -/
theorem load_ok (f : Frame) (m : Option (List (String × String)))
    (h1 : (applyMapping f m).data.length ≠ 0)
    (h2 : ∀ c ∈ requiredFields, c ∈ (applyMapping f m).cols) :
    load f m = Except.ok (buildReport (normalizeFrame (applyMapping f m))) := by
  have hc : (applyMapping f m).cols ≠ [] := by
    intro he
    have hv := h2 "vendor" (by simp [requiredFields])
    rw [he] at hv
    exact List.not_mem_nil _ hv
  have hm : requiredFields.filter
      (fun c => decide (c ∉ (applyMapping f m).cols)) = [] := by
    rw [List.filter_eq_nil_iff]
    intro c hcm
    simp [h2 c hcm]
  simp only [load]
  rw [if_neg (by push_neg; exact ⟨h1, hc⟩), if_pos hm]

/-- Any report produced by `load` is the report of the normalized, mapped
frame. -/
theorem load_ok_inv {f : Frame} {m : Option (List (String × String))}
    {r : Report} (h : load f m = Except.ok r) :
    r = buildReport (normalizeFrame (applyMapping f m)) := by
  simp only [load] at h
  split at h
  · exact absurd h (by simp)
  · split at h
    · exact (Except.ok.injEq _ _ ▸ h).symm
    · exact absurd h (by simp)

/-- The 3-row table used throughout the repository's test-suite fixtures. -/
def sampleFrame : Frame :=
  ⟨["vendor", "amount", "date", "category"],
   [[Value.vStr "Vendor A", Value.vNum 100, Value.vStr "2023-01-01",
     Value.vStr "IT"],
    [Value.vStr "Vendor B", Value.vNum 200, Value.vStr "2023-01-02",
     Value.vStr "Services"],
    [Value.vStr "Vendor A", Value.vNum 150, Value.vStr "2023-01-03",
     Value.vStr "IT"]]⟩

def sampleReport : Report := buildReport (normalizeFrame sampleFrame)

/-! ## C1: seven named sections on every valid input -/

/-- C1: for every non-empty input table that contains the columns vendor,
amount and date after mapping, `load` succeeds and the produced artifact
consists of exactly the 7 named sections, in creation order. -/
theorem load_succeeds_with_seven_sheets (f : Frame)
    (m : Option (List (String × String)))
    (h1 : (applyMapping f m).data.length ≠ 0)
    (h2 : ∀ c ∈ requiredFields, c ∈ (applyMapping f m).cols) :
    ∃ r, load f m = Except.ok r ∧
      r.sheetNames = ["Executive Summary", "Spend by Vendor",
        "Spend by Category", "Monthly Trends", "Top Insights",
        "Detailed Data", "Data Quality Report"] :=
  ⟨buildReport (normalizeFrame (applyMapping f m)), load_ok f m h1 h2, rfl⟩

theorem load_succeeds_with_seven_sheets_witness :
    (applyMapping sampleFrame none).data.length ≠ 0 ∧
    (∀ c ∈ requiredFields, c ∈ (applyMapping sampleFrame none).cols) ∧
    ∃ r, load sampleFrame none = Except.ok r ∧
      r.sheetNames = ["Executive Summary", "Spend by Vendor",
        "Spend by Category", "Monthly Trends", "Top Insights",
        "Detailed Data", "Data Quality Report"] :=
  ⟨by decide, by decide,
    load_succeeds_with_seven_sheets sampleFrame none (by decide) (by decide)⟩

/-! ## C4: spreadsheet serial date decoding -/

/-- C4: every numeric value strictly above 25569 is decoded as a
spreadsheet serial (day offset from the 1899-12-30 epoch), falling through
to the generic numeric parse when serial conversion fails; in particular
serial 44562 decodes to calendar date 2022-01-01. -/
theorem serial_date_decoding :
    (∀ q : MRat, MRat.Lt (MRat.ofInt 25569) q →
      parseDate (Value.vNum q) =
        (match serialToDate q with
         | some t => Value.vDate t
         | none => genericParseNum q)) ∧
    serialToDate (MRat.ofInt 44562) =
      some (MRat.add (MRat.ofInt serialEpoch) (MRat.ofInt 44562)) ∧
    parseDate (Value.vNum (MRat.ofInt 44562)) =
      Value.vDate (MRat.ofInt (rataDie 2022 1 1)) := by
  refine ⟨fun q hq => ?_, by decide, by decide⟩
  have hb : MRat.ltb (MRat.ofInt 25569) q = true := decide_eq_true hq
  simp only [parseDate, Value.isna, Bool.false_eq_true, if_false, hb, if_true]

theorem serial_date_decoding_witness :
    MRat.Lt (MRat.ofInt 25569) (MRat.ofInt 44562) ∧
    parseDate (Value.vNum (MRat.ofInt 44562)) =
      (match serialToDate (MRat.ofInt 44562) with
       | some t => Value.vDate t
       | none => genericParseNum (MRat.ofInt 44562)) :=
  ⟨by decide, serial_date_decoding.1 (MRat.ofInt 44562) (by decide)⟩

/-! ## C5: totality of per-value coercion

The claim that the invalid-date sentinel is distinct from null fails: the
sentinel is `pd.NaT`, and `pd.isna(pd.NaT)` holds, so the sentinel is itself
a null value (and coincides with a missing date already stored as `NaT`). -/

/-- C5 counterexample: the unparseable string "hello" is coerced to the
sentinel `NaT`, and that sentinel satisfies the null predicate `pd.isna` —
it is not distinct from null. -/
theorem date_sentinel_is_null :
    parseDate (Value.vStr "hello") = Value.vNaT ∧
    Value.isna Value.vNaT = true ∧
    parseDate Value.vNaT = Value.vNaT := by
  refine ⟨by decide, by decide, by decide⟩

/-- C5 (amended): per-value coercion is total: every amount becomes a
number or the `nan` null; every null date value is returned unchanged; every
unparseable date value becomes the `NaT` sentinel, which differs from the
`None` and `nan` null objects (so those missing forms stay distinguishable
from it) but itself satisfies the null predicate. -/
theorem coercion_total (v w : Value) (s : String)
    (hw : w.isna = true) (hs : parseDateString s = none) :
    ((∃ q, toNumeric v = Value.vNum q) ∨ toNumeric v = Value.vNaN) ∧
    parseDate w = w ∧
    (parseDate (Value.vStr s) = Value.vNaT ∧ Value.vNaT ≠ Value.vNone ∧
      Value.vNaT ≠ Value.vNaN ∧ Value.isna Value.vNaT = true) := by
  refine ⟨?_, ?_, ?_, by decide, by decide, by decide⟩
  · cases v with
    | vNum q => exact Or.inl ⟨q, rfl⟩
    | vStr t =>
      simp only [toNumeric]
      cases parseDecimal t with
      | none => exact Or.inr rfl
      | some q => exact Or.inl ⟨q, rfl⟩
    | vNone => exact Or.inr rfl
    | vNaN => exact Or.inr rfl
    | vNaT => exact Or.inr rfl
    | vDate t => exact Or.inr rfl
  · simp only [parseDate, hw, if_true]
  · simp only [parseDate, Value.isna, Bool.false_eq_true, if_false, hs]

theorem coercion_total_witness :
    Value.isna Value.vNaN = true ∧ parseDateString "12/31/2023x" = none ∧
    (((∃ q, toNumeric (Value.vStr "oops") = Value.vNum q) ∨
       toNumeric (Value.vStr "oops") = Value.vNaN) ∧
     parseDate Value.vNaN = Value.vNaN ∧
     (parseDate (Value.vStr "12/31/2023x") = Value.vNaT ∧
       Value.vNaT ≠ Value.vNone ∧ Value.vNaT ≠ Value.vNaN ∧
       Value.isna Value.vNaT = true)) :=
  ⟨by decide, by decide,
    coercion_total (Value.vStr "oops") Value.vNaN "12/31/2023x"
      (by decide) (by decide)⟩

/-! ## C3: validator

The claim's "otherwise" branch fails on a table that has rows but no
columns: pandas `df.empty` is true whenever either axis has length 0, so
such a table raises the empty-input error even though it has nonzero rows
and is missing every required field. -/

/-- C3 counterexample: a frame with three rows and no columns (an
index-only DataFrame) has nonzero rows and lacks the `vendor` column, yet
`load` fails with the empty-input error, not the missing-fields error the
claim requires for non-zero-row tables. -/
theorem validator_rows_no_cols_counterexample :
    (Frame.mk [] [[], [], []]).data.length ≠ 0 ∧
    "vendor" ∉ (Frame.mk [] [[], [], []]).cols ∧
    load (Frame.mk [] [[], [], []]) none ≠
      Except.error (LoadError.missingFields ["vendor", "amount", "date"]) ∧
    load (Frame.mk [] [[], [], []]) none = Except.error LoadError.emptyInput :=
  by refine ⟨by decide, by decide, by decide, by decide⟩

/-- C3 (amended): the validator runs after mapping and before
normalization; it fails with the empty-input error whenever the mapped
table has zero rows or zero columns (pandas `df.empty`); otherwise, when a
required canonical field is absent it fails with the missing-fields error
carrying exactly the missing names in the canonical order
vendor, amount, date.  Both errors short-circuit: no report is built. -/
theorem validator_contract (f : Frame) (m : Option (List (String × String))) :
    ((applyMapping f m).data.length = 0 ∨ (applyMapping f m).cols = [] →
      load f m = Except.error LoadError.emptyInput) ∧
    ((applyMapping f m).data.length ≠ 0 → (applyMapping f m).cols ≠ [] →
      requiredFields.filter (fun c => decide (c ∉ (applyMapping f m).cols)) ≠ [] →
      load f m = Except.error (LoadError.missingFields
        (requiredFields.filter
          (fun c => decide (c ∉ (applyMapping f m).cols))))) ∧
    (applyMapping f m).data = f.data := by
  refine ⟨fun h => ?_, fun h1 h2 h3 => ?_, applyMapping_data f m⟩
  · simp only [load]
    rw [if_pos h]
  · simp only [load]
    rw [if_neg (by push_neg; exact ⟨h1, h2⟩), if_neg h3]

theorem validator_contract_witness :
    ((Frame.mk ["vendor", "amount", "date"] []).data.length = 0 ∨
      (Frame.mk ["vendor", "amount", "date"] []).cols = []) ∧
    load (Frame.mk ["vendor", "amount", "date"] []) none =
      Except.error LoadError.emptyInput ∧
    load (Frame.mk ["vendor", "amount"] [[Value.vStr "A", Value.vNum 10]])
        none =
      Except.error (LoadError.missingFields ["date"]) :=
  ⟨Or.inl (by decide),
    (validator_contract (Frame.mk ["vendor", "amount", "date"] []) none).1
      (Or.inl (by decide)),
    by
      have h := (validator_contract
        (Frame.mk ["vendor", "amount"] [[Value.vStr "A", Value.vNum 10]])
        none).2.1 (by decide) (by decide) (by decide)
      exact h.trans (by decide)⟩

/-! ## C9: the caller's table is never modified -/

theorem getD_append_self (l : List Frame) (x : Frame) :
    (l ++ [x]).getD l.length emptyFrame = x := by
  rw [List.getD_eq_getElem?_getD, List.getElem?_append]
  simp

/-- C9: in the object-level model, `load` leaves the caller's frame object
untouched, on success and on failure alike (all renaming and coercion act on
the copy taken at line 35), and its result agrees with the pure pipeline
applied to the caller's frame. -/
theorem caller_frame_unmodified (h : Heap) (r : ℕ)
    (m : Option (List (String × String))) (hr : r < h.length) :
    ((loadHeap h r m).2)[r]? = h[r]? ∧
    (loadHeap h r m).1 = load (h.getD r emptyFrame) m := by
  have happ : ∀ (l : Heap) (x : Frame), r < l.length → (l ++ [x])[r]? = l[r]? := by
    intro l x hl
    rw [List.getElem?_append]
    exact if_pos hl
  have h1r : r < (h ++ [h.getD r emptyFrame]).length := by
    simp
    omega
  constructor
  · cases m with
    | none =>
      simp only [loadHeap]
      split
      · exact happ h _ hr
      · split
        · rw [List.getElem?_set_ne (by simp; omega)]
          exact happ h _ hr
        · exact happ h _ hr
    | some mp =>
      simp only [loadHeap]
      split
      · rw [happ _ _ h1r, happ h _ hr]
      · split
        · rw [List.getElem?_set_ne (by simp; omega), happ _ _ h1r, happ h _ hr]
        · rw [happ _ _ h1r, happ h _ hr]
  · cases m with
    | none =>
      simp only [loadHeap, load, getD_append_self, applyMapping]
      split
      · rfl
      · split <;> rfl
    | some mp =>
      simp only [loadHeap, load, getD_append_self, applyMapping]
      split
      · rfl
      · split <;> rfl

theorem caller_frame_unmodified_witness :
    0 < ([sampleFrame] : Heap).length ∧
    ((loadHeap [sampleFrame] 0 none).2)[0]? = ([sampleFrame] : Heap)[0]? ∧
    (loadHeap [sampleFrame] 0 none).1 =
      load (([sampleFrame] : Heap).getD 0 emptyFrame) none :=
  ⟨by decide, caller_frame_unmodified [sampleFrame] 0 none (by decide)⟩

/-! ## C2: exact per-vendor aggregation -/

theorem setCol_data_length (f : Frame) (c : String) (g : Value → Value) :
    (f.setCol c g).data.length = f.data.length := by
  unfold Frame.setCol
  split <;> simp

theorem normalizeFrame_data_length (f : Frame) :
    (normalizeFrame f).data.length = f.data.length := by
  unfold normalizeFrame
  rw [setCol_data_length, setCol_data_length]

/-- Every row of the vendor sheet carries exactly the groupby aggregates of
its own vendor (sorting and ranking do not disturb the association). -/
theorem vendRow_mem {grand : MRat} {l : List (Value × Option MRat)}
    {row : VendRow} (hm : row ∈ mkVendRows grand (sortStats (vendStats l))) :
    row.total = sumFor l row.vendor ∧ row.count = countFor l row.vendor ∧
    row.vendor ∈ keysOf l := by
  obtain ⟨p, hp, hrow⟩ := List.mem_map.mp hm
  have hsnd : p.2 ∈ sortStats (vendStats l) := by
    have hmapped : p.2 ∈ (sortStats (vendStats l)).enum.map Prod.snd :=
      List.mem_map_of_mem Prod.snd hp
    rwa [List.enum_map_snd] at hmapped
  have hstat : p.2 ∈ vendStats l :=
    (List.perm_insertionSort DescTotal (vendStats l)).mem_iff.mp hsnd
  obtain ⟨k, hk, hps⟩ := List.mem_map.mp hstat
  subst hrow
  refine ⟨?_, ?_, ?_⟩
  · show p.2.total = sumFor l p.2.vendor
    rw [← hps]
  · show p.2.count = countFor l p.2.vendor
    rw [← hps]
  · show p.2.vendor ∈ keysOf l
    rw [← hps]
    exact hk

/-- Concrete aggregation facts for the test-suite fixture: vendor A totals
250, vendor B totals 200, grand total 450, two distinct vendors. -/
def c2check (r : Report) : Bool :=
  match r.vendorSheet with
  | [a, b] =>
    a.vendor == Value.vStr "Vendor A" && a.total.eqb (MRat.ofInt 250) &&
    b.vendor == Value.vStr "Vendor B" && b.total.eqb (MRat.ofInt 200) &&
    r.execTotalSpend.eqb (MRat.ofInt 450) && r.execVendorCount == 2
  | _ => false

/-- C2: in every generated report each vendor-sheet row's total is the exact
sum of that vendor's (coerced) amounts, the grand total is the exact sum of
all amounts, the transaction count is the row count and the vendor count is
the number of distinct non-null vendors; on the fixture amounts
[100, 200, 150] with vendors [A, B, A] this gives A = 250, B = 200,
total = 450, 2 vendors. -/
theorem vendor_aggregation_exact :
    (∀ (f : Frame) (m : Option (List (String × String))) (r : Report),
      load f m = Except.ok r →
      (∀ row ∈ r.vendorSheet,
        row.total =
          sumFor (vendorAmountPairs (normalizeFrame (applyMapping f m)))
            row.vendor) ∧
      r.execTotalSpend = sumAmounts (normalizeFrame (applyMapping f m)) ∧
      r.execTxCount = f.data.length ∧
      r.execVendorCount =
        (keysOf (vendorAmountPairs
          (normalizeFrame (applyMapping f m)))).length) ∧
    (load sampleFrame none).map c2check = Except.ok true := by
  refine ⟨fun f m r h => ?_, by decide⟩
  have hr := load_ok_inv h
  subst hr
  refine ⟨fun row hm => (vendRow_mem hm).1, rfl, ?_, rfl⟩
  show (normalizeFrame (applyMapping f m)).data.length = f.data.length
  rw [normalizeFrame_data_length, applyMapping_data]

theorem vendor_aggregation_exact_witness :
    load sampleFrame none = Except.ok sampleReport ∧
    (VendRow.mk 1 (Value.vStr "Vendor A") (MRat.ofInt 250) 2
        (FVal.fin (MRat.dv (MRat.ofInt 250) (MRat.ofInt 2)))
        (FVal.fin (MRat.dv (MRat.ofInt 250) (MRat.ofInt 450))))
      ∈ sampleReport.vendorSheet ∧
    (VendRow.mk 1 (Value.vStr "Vendor A") (MRat.ofInt 250) 2
        (FVal.fin (MRat.dv (MRat.ofInt 250) (MRat.ofInt 2)))
        (FVal.fin (MRat.dv (MRat.ofInt 250) (MRat.ofInt 450)))).total =
      sumFor (vendorAmountPairs (normalizeFrame (applyMapping sampleFrame none)))
        (VendRow.mk 1 (Value.vStr "Vendor A") (MRat.ofInt 250) 2
          (FVal.fin (MRat.dv (MRat.ofInt 250) (MRat.ofInt 2)))
          (FVal.fin (MRat.dv (MRat.ofInt 250) (MRat.ofInt 450)))).vendor :=
  ⟨by decide, by decide,
    (vendor_aggregation_exact.1 sampleFrame none sampleReport (by decide)).1
      _ (by decide)⟩

/-! ## C7: data quality report -/

/-- The status thresholds, claim-shaped: at least 90 is OK, at least 70 but
below 90 is WARNING, below 70 is CRITICAL. -/
theorem statusOf_spec (c : MRat) :
    (MRat.Le (MRat.ofInt 90) c → statusOf c = "OK") ∧
    (MRat.Le (MRat.ofInt 70) c → MRat.Lt c (MRat.ofInt 90) →
      statusOf c = "WARNING") ∧
    (MRat.Lt c (MRat.ofInt 70) → statusOf c = "CRITICAL") := by
  have hd := c.dpos
  refine ⟨fun h => ?_, fun h1 h2 => ?_, fun h => ?_⟩
  · unfold statusOf MRat.leb
    rw [if_pos (decide_eq_true h)]
  · have h90 : ¬ MRat.Le (MRat.ofInt 90) c := by
      unfold MRat.Le
      unfold MRat.Lt at h2
      simp only [MRat.ofInt] at *
      omega
    unfold statusOf MRat.leb
    rw [if_neg (by simpa using h90), if_pos (decide_eq_true h1)]
  · have h90 : ¬ MRat.Le (MRat.ofInt 90) c := by
      unfold MRat.Le
      unfold MRat.Lt at h
      simp only [MRat.ofInt] at *
      omega
    have h70 : ¬ MRat.Le (MRat.ofInt 70) c := by
      unfold MRat.Le
      unfold MRat.Lt at h
      simp only [MRat.ofInt] at *
      omega
    unfold statusOf MRat.leb
    rw [if_neg (by simpa using h90), if_neg (by simpa using h70)]

/-- The 3-row fixture of `test_data_quality_report`: one null vendor, one
null amount, fully populated dates. -/
def qualityFrame : Frame :=
  ⟨["vendor", "amount", "date"],
   [[Value.vStr "Vendor A", Value.vNum 100, Value.vStr "2023-01-01"],
    [Value.vNone, Value.vNum 200, Value.vStr "2023-01-02"],
    [Value.vStr "Vendor C", Value.vNone, Value.vStr "2023-01-03"]]⟩

def qualityReport : Report := buildReport (normalizeFrame qualityFrame)

/-- Concrete quality facts for `qualityFrame`: vendor completeness is
(2/3)·100 and CRITICAL, date completeness 100 and OK, overall score is the
mean 700/9. -/
def c7check (r : Report) : Bool :=
  match r.quality with
  | [v, a, d] =>
    v.field == "vendor" &&
    v.pct.eqb (MRat.dv (MRat.ofInt 200) (MRat.ofInt 3)) &&
    v.status == "CRITICAL" && a.status == "CRITICAL" &&
    d.field == "date" && d.pct.eqb (MRat.ofInt 100) && d.status == "OK" &&
    r.overall.eqb (MRat.dv (MRat.ofInt 700) (MRat.ofInt 9))
  | _ => false

/-- C7: in every generated report, each quality row's completeness is
(non-null count / row count) × 100 for its column of the normalized table,
its status follows the ≥90 / ≥70 / otherwise thresholds, and the overall
score is the mean of the per-column completeness values; on the fixture a
column with 2 of 3 values is CRITICAL and a full column is 100 and OK. -/
theorem data_quality_correct :
    (∀ (f : Frame) (m : Option (List (String × String))) (r : Report),
      load f m = Except.ok r →
      (∀ qr ∈ r.quality,
        qr.pct = MRat.mul
          (MRat.dv
            (MRat.ofInt (nonNullCount
              ((normalizeFrame (applyMapping f m)).col qr.field)))
            (MRat.ofInt (normalizeFrame (applyMapping f m)).data.length))
          (MRat.ofInt 100) ∧
        (MRat.Le (MRat.ofInt 90) qr.pct → qr.status = "OK") ∧
        (MRat.Le (MRat.ofInt 70) qr.pct → MRat.Lt qr.pct (MRat.ofInt 90) →
          qr.status = "WARNING") ∧
        (MRat.Lt qr.pct (MRat.ofInt 70) → qr.status = "CRITICAL")) ∧
      r.overall = MRat.dv
        (msum ((normalizeFrame (applyMapping f m)).cols.map
          (completenessOf (normalizeFrame (applyMapping f m)))))
        (MRat.ofInt (normalizeFrame (applyMapping f m)).cols.length)) ∧
    (load qualityFrame none).map c7check = Except.ok true := by
  refine ⟨fun f m r h => ?_, by decide⟩
  have hr := load_ok_inv h
  subst hr
  refine ⟨fun qr hm => ?_, rfl⟩
  obtain ⟨c, hc, he⟩ := List.mem_map.mp hm
  have hpct : qr.pct = completenessOf (normalizeFrame (applyMapping f m)) qr.field := by
    rw [← he]
  have hst : qr.status = statusOf qr.pct := by
    rw [← he]
  rw [hst]
  exact ⟨hpct, statusOf_spec qr.pct⟩

theorem data_quality_correct_witness :
    load qualityFrame none = Except.ok qualityReport ∧
    (QualityRow.mk "vendor"
        (MRat.mul (MRat.dv (MRat.ofInt 2) (MRat.ofInt 3)) (MRat.ofInt 100))
        "CRITICAL") ∈ qualityReport.quality ∧
    (QualityRow.mk "vendor"
        (MRat.mul (MRat.dv (MRat.ofInt 2) (MRat.ofInt 3)) (MRat.ofInt 100))
        "CRITICAL").pct = MRat.mul
      (MRat.dv
        (MRat.ofInt (nonNullCount
          ((normalizeFrame (applyMapping qualityFrame none)).col "vendor")))
        (MRat.ofInt (normalizeFrame (applyMapping qualityFrame none)).data.length))
      (MRat.ofInt 100) :=
  ⟨by decide, by decide,
    ((data_quality_correct.1 qualityFrame none qualityReport (by decide)).1
      _ (by decide)).1⟩

/-! ## C6: insight engine -/

def Insight.isCons : Insight → Bool
  | Insight.consolidation _ _ _ _ => true
  | _ => false

/-- The risks of the concentration insights present, in sheet order. -/
def concRisks (l : List Insight) : List String :=
  l.filterMap (fun i =>
    match i with
    | Insight.concentration _ _ risk => some risk
    | _ => none)

/-- Behaviour of the insight engine on arbitrary vendor statistics:
consolidation is present iff some vendor totals strictly below 5000, its
savings range is exactly 15%-20% of the combined tail spend, and the
concentration insight is always present, last, with the >80 / >50 risk
ladder evaluated on the (possibly non-finite) percentage. -/
theorem mkInsights_spec (stats : List VendStat) (grand : MRat) :
    ((∃ i ∈ mkInsights stats grand, i.isCons = true) ↔
      ∃ s ∈ stats, MRat.Lt s.total (MRat.ofInt 5000)) ∧
    (∀ n ts lo hi, Insight.consolidation n ts lo hi ∈ mkInsights stats grand →
      n = (tailOf stats).length ∧
      ts = msum ((tailOf stats).map VendStat.total) ∧
      lo = MRat.mul ts pct15 ∧ hi = MRat.mul ts pct20) ∧
    (∃ pre t10 pct risk,
      mkInsights stats grand = pre ++ [Insight.concentration t10 pct risk] ∧
      (∀ i ∈ pre, i.isCons = true) ∧
      t10 = top10Spend stats ∧
      pct = fscale (fdiv t10 grand) (MRat.ofInt 100) ∧
      (pct.gtb (MRat.ofInt 80) = true → risk = "High") ∧
      (pct.gtb (MRat.ofInt 80) = false → pct.gtb (MRat.ofInt 50) = true →
        risk = "Medium") ∧
      (pct.gtb (MRat.ofInt 80) = false → pct.gtb (MRat.ofInt 50) = false →
        risk = "Low")) := by
  by_cases hE : (tailOf stats).isEmpty = true
  · have hnil : tailOf stats = [] := List.isEmpty_iff.mp hE
    refine ⟨⟨?_, ?_⟩, ?_, ?_⟩
    · rintro ⟨i, hi, hc⟩
      simp [mkInsights, hnil] at hi
      subst hi
      simp [Insight.isCons] at hc
    · rintro ⟨s, hs, hlt⟩
      exfalso
      have hmem : s ∈ tailOf stats :=
        List.mem_filter.mpr ⟨hs, decide_eq_true hlt⟩
      rw [hnil] at hmem
      exact List.not_mem_nil _ hmem
    · intro n ts lo hi hmem
      exfalso
      simp [mkInsights, hnil] at hmem
    · refine ⟨[], top10Spend stats,
        fscale (fdiv (top10Spend stats) grand) (MRat.ofInt 100),
        (if (fscale (fdiv (top10Spend stats) grand)
              (MRat.ofInt 100)).gtb (MRat.ofInt 80) then "High"
         else if (fscale (fdiv (top10Spend stats) grand)
              (MRat.ofInt 100)).gtb (MRat.ofInt 50) then "Medium"
         else "Low"), ?_, fun i hi => absurd hi (List.not_mem_nil i),
        rfl, rfl, ?_, ?_, ?_⟩
      · simp [mkInsights, hnil]
      · intro h80
        rw [if_pos h80]
      · intro h80 h50
        rw [if_neg (by simp [h80]), if_pos h50]
      · intro h80 h50
        rw [if_neg (by simp [h80]), if_neg (by simp [h50])]
  · have hEf : (tailOf stats).isEmpty = false := by
      cases hb : (tailOf stats).isEmpty with
      | false => rfl
      | true => exact absurd hb hE
    have hne : tailOf stats ≠ [] := by
      intro hnil
      rw [hnil] at hEf
      exact absurd hEf (by simp)
    refine ⟨⟨?_, ?_⟩, ?_, ?_⟩
    · intro _
      obtain ⟨s, hs⟩ := List.exists_mem_of_ne_nil (tailOf stats) hne
      have hf := List.mem_filter.mp hs
      exact ⟨s, hf.1, of_decide_eq_true hf.2⟩
    · intro _
      refine ⟨Insight.consolidation (tailOf stats).length
        (msum ((tailOf stats).map VendStat.total))
        (MRat.mul (msum ((tailOf stats).map VendStat.total)) pct15)
        (MRat.mul (msum ((tailOf stats).map VendStat.total)) pct20), ?_, rfl⟩
      simp [mkInsights, hEf]
    · intro n ts lo hi hmem
      simp [mkInsights, hEf] at hmem
      obtain ⟨h1, h2, h3, h4⟩ := hmem
      subst h2
      exact ⟨h1, rfl, h3, h4⟩
    · refine ⟨[Insight.consolidation (tailOf stats).length
          (msum ((tailOf stats).map VendStat.total))
          (MRat.mul (msum ((tailOf stats).map VendStat.total)) pct15)
          (MRat.mul (msum ((tailOf stats).map VendStat.total)) pct20)],
        top10Spend stats,
        fscale (fdiv (top10Spend stats) grand) (MRat.ofInt 100),
        (if (fscale (fdiv (top10Spend stats) grand)
              (MRat.ofInt 100)).gtb (MRat.ofInt 80) then "High"
         else if (fscale (fdiv (top10Spend stats) grand)
              (MRat.ofInt 100)).gtb (MRat.ofInt 50) then "Medium"
         else "Low"), ?_, ?_, rfl, rfl, ?_, ?_, ?_⟩
      · simp [mkInsights, hEf]
      · intro i hi
        rw [List.mem_singleton] at hi
        subst hi
        rfl
      · intro h80
        rw [if_pos h80]
      · intro h80 h50
        rw [if_neg (by simp [h80]), if_pos h50]
      · intro h80 h50
        rw [if_neg (by simp [h80]), if_neg (by simp [h50])]

/-- C6: in every generated report the consolidation insight is present iff
some vendor's total spend is strictly below 5000, with savings exactly 15%
to 20% of the combined tail spend; the concentration insight is always
present and last (so consolidation, when present, precedes it), with risk
High when the top-10 percentage exceeds 80, Medium when it exceeds 50 but
not 80, and Low otherwise. -/
theorem insight_engine_correct (f : Frame) (m : Option (List (String × String)))
    (r : Report) (h : load f m = Except.ok r) :
    ((∃ i ∈ r.insights, i.isCons = true) ↔
      ∃ s ∈ vendStats (vendorAmountPairs (normalizeFrame (applyMapping f m))),
        MRat.Lt s.total (MRat.ofInt 5000)) ∧
    (∀ n ts lo hi, Insight.consolidation n ts lo hi ∈ r.insights →
      n = (tailOf (vendStats (vendorAmountPairs
        (normalizeFrame (applyMapping f m))))).length ∧
      ts = msum ((tailOf (vendStats (vendorAmountPairs
        (normalizeFrame (applyMapping f m))))).map VendStat.total) ∧
      lo = MRat.mul ts pct15 ∧ hi = MRat.mul ts pct20) ∧
    (∃ pre t10 pct risk,
      r.insights = pre ++ [Insight.concentration t10 pct risk] ∧
      (∀ i ∈ pre, i.isCons = true) ∧
      t10 = top10Spend (vendStats (vendorAmountPairs
        (normalizeFrame (applyMapping f m)))) ∧
      pct = fscale (fdiv t10 (sumAmounts (normalizeFrame (applyMapping f m))))
        (MRat.ofInt 100) ∧
      (pct.gtb (MRat.ofInt 80) = true → risk = "High") ∧
      (pct.gtb (MRat.ofInt 80) = false → pct.gtb (MRat.ofInt 50) = true →
        risk = "Medium") ∧
      (pct.gtb (MRat.ofInt 80) = false → pct.gtb (MRat.ofInt 50) = false →
        risk = "Low")) := by
  have hr := load_ok_inv h
  subst hr
  exact mkInsights_spec _ _

theorem insight_engine_correct_witness :
    load sampleFrame none = Except.ok sampleReport ∧
    ((∃ i ∈ sampleReport.insights, i.isCons = true) ↔
      ∃ s ∈ vendStats (vendorAmountPairs
          (normalizeFrame (applyMapping sampleFrame none))),
        MRat.Lt s.total (MRat.ofInt 5000)) :=
  ⟨by decide,
    (insight_engine_correct sampleFrame none sampleReport (by decide)).1⟩

/-! ## C8: ranking -/

theorem enum_map_comp {α β : Type} (l : List α) (g : α → β) :
    l.enum.map (fun p => g p.2) = l.map g := by
  rw [show (fun p : ℕ × α => g p.2) = (g ∘ Prod.snd) from rfl, ← List.map_map,
    List.enum_map_snd]

theorem enum_map_fst_comp {α : Type} (l : List α) :
    l.enum.map (fun p => p.1 + 1) = (List.range l.length).map (· + 1) := by
  rw [show (fun p : ℕ × α => p.1 + 1) = ((· + 1) ∘ Prod.fst) from rfl,
    ← List.map_map, List.enum_map_fst]

theorem mkTopRows_map_total (grand : MRat) (l : List VendStat) :
    (mkTopRows grand l).map TopRow.total = l.map VendStat.total := by
  unfold mkTopRows
  rw [List.map_map]
  exact enum_map_comp l VendStat.total

theorem mkVendRows_map_total (grand : MRat) (l : List VendStat) :
    (mkVendRows grand l).map VendRow.total = l.map VendStat.total := by
  unfold mkVendRows
  rw [List.map_map]
  exact enum_map_comp l VendStat.total

theorem mkTopRows_chain (grand : MRat) (l : List VendStat)
    (hp : List.Pairwise DescTotal l) :
    List.Chain' (fun a b : TopRow => MRat.Le b.total a.total)
      (mkTopRows grand l) := by
  have hc : List.Chain' (fun a b : MRat => MRat.Le b a)
      ((mkTopRows grand l).map TopRow.total) := by
    rw [mkTopRows_map_total]
    exact (List.chain'_map VendStat.total).mpr hp.chain'
  exact (List.chain'_map TopRow.total).mp hc

theorem mkVendRows_chain (grand : MRat) (l : List VendStat)
    (hp : List.Pairwise DescTotal l) :
    List.Chain' (fun a b : VendRow => MRat.Le b.total a.total)
      (mkVendRows grand l) := by
  have hc : List.Chain' (fun a b : MRat => MRat.Le b a)
      ((mkVendRows grand l).map VendRow.total) := by
    rw [mkVendRows_map_total]
    exact (List.chain'_map VendStat.total).mpr hp.chain'
  exact (List.chain'_map VendRow.total).mp hc

theorem mkTopRows_map_rank (grand : MRat) (l : List VendStat) :
    (mkTopRows grand l).map TopRow.rank =
      (List.range (mkTopRows grand l).length).map (· + 1) := by
  unfold mkTopRows
  rw [List.map_map, List.length_map, List.enum_length]
  exact enum_map_fst_comp l

theorem mkVendRows_map_rank (grand : MRat) (l : List VendStat) :
    (mkVendRows grand l).map VendRow.rank =
      (List.range (mkVendRows grand l).length).map (· + 1) := by
  unfold mkVendRows
  rw [List.map_map, List.length_map, List.enum_length]
  exact enum_map_fst_comp l

def tieFrame : Frame :=
  ⟨["vendor", "amount", "date"],
   [[Value.vStr "A", Value.vNum 100, Value.vNum 44562],
    [Value.vStr "B", Value.vNum 100, Value.vNum 44563]]⟩

def tieReport : Report := buildReport (normalizeFrame tieFrame)

/-- C8 counterexample: with two vendors of equal total spend (100 each) the
top-5 list has two equal consecutive totals, so it is NOT sorted strictly
descending as the claim states (it is only weakly descending). -/
theorem top5_not_strictly_descending :
    load tieFrame none = Except.ok tieReport ∧
    tieReport.execTop5.map (fun t => t.total.num) = [100, 100] ∧
    tieReport.execTop5.map (fun t => t.total.den) = [1, 1] ∧
    ¬ List.Chain' (fun a b : TopRow => MRat.Lt b.total a.total)
      tieReport.execTop5 := by
  refine ⟨by decide, by decide, by decide, fun hch => ?_⟩
  have he : tieReport.execTop5 =
      [TopRow.mk 1 (Value.vStr "A") (MRat.ofInt 100)
         (FVal.fin (MRat.dv (MRat.ofInt 100) (MRat.ofInt 200))) 1,
       TopRow.mk 2 (Value.vStr "B") (MRat.ofInt 100)
         (FVal.fin (MRat.dv (MRat.ofInt 100) (MRat.ofInt 200))) 1] := by decide
  rw [he, List.chain'_pair] at hch
  exact absurd hch (by decide)

/-- C8 (amended): in every generated report, the top-5 vendor list and the
vendor-analysis sheet are sorted in non-increasing (descending, with ties
adjacent) order of total spend, and the rank column of each is exactly the
contiguous integers 1, 2, ... in order. -/
theorem ranking_correct (f : Frame) (m : Option (List (String × String)))
    (r : Report) (h : load f m = Except.ok r) :
    List.Chain' (fun a b : TopRow => MRat.Le b.total a.total) r.execTop5 ∧
    r.execTop5.map TopRow.rank =
      (List.range r.execTop5.length).map (· + 1) ∧
    List.Chain' (fun a b : VendRow => MRat.Le b.total a.total) r.vendorSheet ∧
    r.vendorSheet.map VendRow.rank =
      (List.range r.vendorSheet.length).map (· + 1) := by
  have hr := load_ok_inv h
  subst hr
  refine ⟨mkTopRows_chain _ _ ?_, mkTopRows_map_rank _ _,
    mkVendRows_chain _ _ ?_, mkVendRows_map_rank _ _⟩
  · exact List.Pairwise.sublist (List.take_sublist 5 _)
      (List.sorted_insertionSort DescTotal _)
  · exact List.sorted_insertionSort DescTotal _

theorem ranking_correct_witness :
    load sampleFrame none = Except.ok sampleReport ∧
    sampleReport.execTop5.map TopRow.rank =
      (List.range sampleReport.execTop5.length).map (· + 1) :=
  ⟨by decide,
    (ranking_correct sampleFrame none sampleReport (by decide)).2.1⟩

/-! ## C10: zero grand total -/

theorem concRisks_mkInsights (stats : List VendStat) (grand : MRat) :
    concRisks (mkInsights stats grand) =
      [if (fscale (fdiv (top10Spend stats) grand) (MRat.ofInt 100)).gtb
          (MRat.ofInt 80) then "High"
       else if (fscale (fdiv (top10Spend stats) grand) (MRat.ofInt 100)).gtb
          (MRat.ofInt 50) then "Medium"
       else "Low"] := by
  by_cases hE : (tailOf stats).isEmpty = true
  · simp [mkInsights, hE, concRisks]
  · have hEf : (tailOf stats).isEmpty = false := by
      cases hb : (tailOf stats).isEmpty with
      | false => rfl
      | true => exact absurd hb hE
    simp [mkInsights, hEf, concRisks]

/-- With a zero grand total the concentration percentage is `nan` or `±inf`
(never finite), so the risk ladder yields High exactly when the top-10 spend
is positive, and Low otherwise. -/
theorem concRisks_zero_grand (stats : List VendStat) (grand : MRat)
    (hnum : grand.num = 0) :
    concRisks (mkInsights stats grand) =
      [if MRat.Lt (MRat.ofInt 0) (top10Spend stats) then "High" else "Low"] := by
  rw [concRisks_mkInsights]
  rcases lt_trichotomy (top10Spend stats).num 0 with hneg | hzero | hpos
  · have hfd : fdiv (top10Spend stats) grand = FVal.ninf := by
      unfold fdiv
      rw [if_pos hnum, if_neg (by omega), if_neg (by omega)]
    have hlt : ¬ MRat.Lt (MRat.ofInt 0) (top10Spend stats) := by
      unfold MRat.Lt
      simp only [MRat.ofInt]
      omega
    rw [hfd]
    simp [fscale, FVal.gtb, hlt]
  · have hfd : fdiv (top10Spend stats) grand = FVal.nan := by
      unfold fdiv
      rw [if_pos hnum, if_pos hzero]
    have hlt : ¬ MRat.Lt (MRat.ofInt 0) (top10Spend stats) := by
      unfold MRat.Lt
      simp only [MRat.ofInt]
      omega
    rw [hfd]
    simp [fscale, FVal.gtb, hlt]
  · have hfd : fdiv (top10Spend stats) grand = FVal.inf := by
      unfold fdiv
      rw [if_pos hnum, if_neg (by omega), if_pos hpos]
    have hlt : MRat.Lt (MRat.ofInt 0) (top10Spend stats) := by
      unfold MRat.Lt
      simp only [MRat.ofInt]
      omega
    rw [hfd]
    simp [fscale, FVal.gtb, hlt]

theorem fdiv_zero_den_special (a b : MRat) (hb : b.num = 0) :
    fdiv a b = FVal.nan ∨ fdiv a b = FVal.inf ∨ fdiv a b = FVal.ninf := by
  unfold fdiv
  rw [if_pos hb]
  by_cases hz : a.num = 0
  · rw [if_pos hz]
    exact Or.inl rfl
  · rw [if_neg hz]
    by_cases hpos : 0 < a.num
    · rw [if_pos hpos]
      exact Or.inr (Or.inl rfl)
    · rw [if_neg hpos]
      exact Or.inr (Or.inr rfl)

/-- Eleven vendors with amounts ten times +1 and once -10: every amount is
coerced, the grand total is 0 but the top-10 spend is +10. -/
def posNegFrame : Frame :=
  ⟨["vendor", "amount", "date"],
   [[Value.vStr "V01", Value.vNum 1, Value.vNum 44562],
    [Value.vStr "V02", Value.vNum 1, Value.vNum 44562],
    [Value.vStr "V03", Value.vNum 1, Value.vNum 44562],
    [Value.vStr "V04", Value.vNum 1, Value.vNum 44562],
    [Value.vStr "V05", Value.vNum 1, Value.vNum 44562],
    [Value.vStr "V06", Value.vNum 1, Value.vNum 44562],
    [Value.vStr "V07", Value.vNum 1, Value.vNum 44562],
    [Value.vStr "V08", Value.vNum 1, Value.vNum 44562],
    [Value.vStr "V09", Value.vNum 1, Value.vNum 44562],
    [Value.vStr "V10", Value.vNum 1, Value.vNum 44562],
    [Value.vStr "W", Value.vNum (MRat.ofInt (-10)), Value.vNum 44562]]⟩

/-- C10 counterexample: on `posNegFrame` the coerced amounts sum to zero,
yet the concentration insight carries risk High (the division of the
positive top-10 spend by the zero grand total yields +inf, which exceeds
the 80 threshold), not Low as the claim states. -/
theorem zero_total_risk_counterexample :
    (load posNegFrame none).map
      (fun r => (r.execTotalSpend.eqb (MRat.ofInt 0), concRisks r.insights)) =
      Except.ok (true, ["High"]) := by decide

/-- C10 (amended): for every valid input whose coerced amounts sum to zero,
`load` still succeeds; the percent-of-total divisions in the executive
summary and vendor analysis produce the non-numeric specials nan or ±inf
rather than raising; the vendor-concentration insight is still emitted,
with risk Low when the top-10 spend is zero or negative (nan or -inf meets
no threshold) and High when the top-10 spend is positive (+inf exceeds
every threshold). -/
theorem zero_total_no_raise (f : Frame) (m : Option (List (String × String)))
    (h1 : (applyMapping f m).data.length ≠ 0)
    (h2 : ∀ c ∈ requiredFields, c ∈ (applyMapping f m).cols)
    (h0 : MRat.Equiv (sumAmounts (normalizeFrame (applyMapping f m)))
      (MRat.ofInt 0)) :
    ∃ r, load f m = Except.ok r ∧
      concRisks r.insights =
        [if MRat.Lt (MRat.ofInt 0) (top10Spend (vendStats (vendorAmountPairs
            (normalizeFrame (applyMapping f m))))) then "High" else "Low"] ∧
      (∀ row ∈ r.execTop5,
        row.pct = FVal.nan ∨ row.pct = FVal.inf ∨ row.pct = FVal.ninf) ∧
      (∀ row ∈ r.vendorSheet,
        row.pct = FVal.nan ∨ row.pct = FVal.inf ∨ row.pct = FVal.ninf) := by
  have hnum : (sumAmounts (normalizeFrame (applyMapping f m))).num = 0 := by
    unfold MRat.Equiv at h0
    simp only [MRat.ofInt] at h0
    omega
  refine ⟨buildReport (normalizeFrame (applyMapping f m)), load_ok f m h1 h2,
    concRisks_zero_grand _ _ hnum, ?_, ?_⟩
  · intro row hm
    obtain ⟨p, hp, he⟩ := List.mem_map.mp hm
    subst he
    exact fdiv_zero_den_special p.2.total _ hnum
  · intro row hm
    obtain ⟨p, hp, he⟩ := List.mem_map.mp hm
    subst he
    exact fdiv_zero_den_special p.2.total _ hnum

/-- Single vendor, single zero amount: valid input with zero grand total. -/
def zeroFrame : Frame :=
  ⟨["vendor", "amount", "date"],
   [[Value.vStr "Z", Value.vNum 0, Value.vNum 44562]]⟩

theorem zero_total_no_raise_witness :
    (applyMapping zeroFrame none).data.length ≠ 0 ∧
    (∀ c ∈ requiredFields, c ∈ (applyMapping zeroFrame none).cols) ∧
    MRat.Equiv (sumAmounts (normalizeFrame (applyMapping zeroFrame none)))
      (MRat.ofInt 0) ∧
    (∃ r, load zeroFrame none = Except.ok r ∧
      concRisks r.insights =
        [if MRat.Lt (MRat.ofInt 0) (top10Spend (vendStats (vendorAmountPairs
            (normalizeFrame (applyMapping zeroFrame none))))) then "High"
         else "Low"] ∧
      (∀ row ∈ r.execTop5,
        row.pct = FVal.nan ∨ row.pct = FVal.inf ∨ row.pct = FVal.ninf) ∧
      (∀ row ∈ r.vendorSheet,
        row.pct = FVal.nan ∨ row.pct = FVal.inf ∨ row.pct = FVal.ninf)) :=
  ⟨by decide, by decide, by decide,
    zero_total_no_raise zeroFrame none (by decide) (by decide) (by decide)⟩
